import Mathlib

/-!
Shallow embedding of the CRUD handlers of `src/app/main.py` (a FastAPI
service over a relational store managing Courses, Users and Projects).

The persistence store is modelled as a value of type `Store` holding the
three tables as lists of rows.  A request handler becomes a Lean function
from the pre-request store (and the decoded payload / path parameters) to
the post-request store paired with either a response value (`Except.ok`)
or a raised `HTTPException` (`Except.error`).  On an error the first
component is the store as the client can observe it afterwards: the
session is rolled back / closed, so it is the pre-request store.
-/

/-- A row of the `courses` table (`CourseDB` in `models.py`). -/
structure Course where
  id : Nat
  code : String
  name : String
  credits : Int
deriving DecidableEq, Repr

/-- A row of the `users` table (`UserDB` in `models.py`). -/
structure User where
  id : Nat
  name : String
  email : String
  age : Int
  student_id : String
deriving DecidableEq, Repr

/-- A row of the `projects` table (`ProjectDB` in `models.py`). -/
structure Project where
  id : Nat
  name : String
  description : String
  owner_id : Nat
deriving DecidableEq, Repr

/-- The whole relational store. -/
structure Store where
  courses : List Course
  users : List User
  projects : List Project
deriving DecidableEq, Repr

/-- An `HTTPException` as raised by the handlers, or an `IntegrityError`
that escapes a handler unhandled (FastAPI then answers with a 500-class
response). -/
inductive Err where
  | notFound (detail : String)
  | conflict (detail : String)
  | integrityViolation
deriving DecidableEq, Repr

deriving instance DecidableEq for Except

/-- HTTP status code of an error response. -/
def Err.status : Err → Nat
  | .notFound _ => 404
  | .conflict _ => 409
  | .integrityViolation => 500

/-- Test that the images under `f` of the list elements are pairwise
distinct. -/
def distinctBy {α β : Type} [BEq β] (f : α → β) : List α → Bool
  | [] => true
  | x :: xs => (xs.all fun y => !(f y == f x)) && distinctBy f xs

/-- Modelled from the spec: the unique-key constraints declared in
`models.py` (absent from `src/`).  Per the spec (§3), `Course.code`,
`User.email` and `User.student_id` are unique, as are all primary-key
ids; the store does not enforce the `owner_id` foreign key (§9: deleting
a user silently leaves orphaned foreign keys).  A pending session state
violating one of these raises `IntegrityError` at commit. -/
def storeIntegrity (s : Store) : Bool :=
  distinctBy Course.id s.courses && distinctBy Course.code s.courses &&
  distinctBy User.id s.users && distinctBy User.email s.users &&
  distinctBy User.student_id s.users &&
  distinctBy Project.id s.projects

/-- Embeds `commit_or_rollback` from `main.py`: try `db.commit()`; on
`IntegrityError`, `db.rollback()` (the observable store stays `old`) and
raise a 409 `HTTPException` carrying `error_msg`. -/
def commit_or_rollback (old pending : Store) (error_msg : String) :
    Store × Option Err :=
  if storeIntegrity pending then (pending, none)
  else (old, some (Err.conflict error_msg))

/-- A bare `db.commit()` with no surrounding `try`: on `IntegrityError`
the exception propagates unhandled and `get_db`'s `finally: db.close()`
discards the pending session state, so the observable store stays
`old`. -/
def db_commit (old pending : Store) : Store × Option Err :=
  if storeIntegrity pending then (pending, none)
  else (old, some Err.integrityViolation)

/-- The tail every insert/update handler shares:
`commit_or_rollback(db, msg); db.refresh(row); return row`. -/
def commitStep {A : Type} (old pending : Store) (msg : String) (a : A) :
    Store × Except Err A :=
  match commit_or_rollback old pending msg with
  | (s2, none) => (s2, Except.ok a)
  | (s2, some e) => (s2, Except.error e)

/-- The tail the three delete handlers share:
`db.commit(); return Response(status_code=204)`. -/
def dbCommitStep (old pending : Store) : Store × Except Err Unit :=
  match db_commit old pending with
  | (s2, none) => (s2, Except.ok ())
  | (s2, some e) => (s2, Except.error e)

/-- Embeds `db.get(CourseDB, course_id)`: primary-key lookup. -/
def findCourse (s : Store) (cid : Nat) : Option Course :=
  s.courses.find? fun c => c.id == cid

/-- Embeds `db.get(UserDB, user_id)`: primary-key lookup. -/
def findUser (s : Store) (uid : Nat) : Option User :=
  s.users.find? fun u => u.id == uid

/-- Embeds `db.get(ProjectDB, project_id)`: primary-key lookup. -/
def findProject (s : Store) (pid : Nat) : Option Project :=
  s.projects.find? fun p => p.id == pid

/-- The autoincrement primary key the store assigns to a fresh row. -/
def nextId (ids : List Nat) : Nat := ids.foldr Nat.max 0 + 1

/-- Embeds `ORDER BY id` on a list of rows with key `f`. -/
def sortById {α : Type} (f : α → Nat) (l : List α) : List α :=
  List.insertionSort (fun a b => f a ≤ f b) l

-- ------------------------------------------------------------
-- Request payload schemas.  Modelled from the spec: `schemas.py` is
-- absent from `src/`; per the spec (§2, §9) PUT/create schemas make
-- every mutable field required, while PATCH schemas make each field
-- optional and `model_dump(exclude_unset=True)` yields exactly the
-- fields the client supplied, here an `Option` per field.
-- ------------------------------------------------------------

/-- Modelled from the spec: `CourseCreate` / `CourseUpdatePUT` shape. -/
structure CourseCreate where
  code : String
  name : String
  credits : Int
deriving DecidableEq, Repr

/-- Modelled from the spec: `CourseUpdatePATCH` shape. -/
structure CoursePatch where
  code : Option String
  name : Option String
  credits : Option Int
deriving DecidableEq, Repr

/-- Modelled from the spec: `ProjectCreate` / `ProjectUpdatePUT` shape. -/
structure ProjectCreate where
  name : String
  description : String
  owner_id : Nat
deriving DecidableEq, Repr

/-- Modelled from the spec: `ProjectCreateForUser` shape (no owner_id:
it comes from the path). -/
structure ProjectCreateForUser where
  name : String
  description : String
deriving DecidableEq, Repr

/-- Modelled from the spec: `ProjectUpdatePATCH` shape. -/
structure ProjectPatch where
  name : Option String
  description : Option String
  owner_id : Option Nat
deriving DecidableEq, Repr

/-- Modelled from the spec: `UserCreate` / `UserUpdatePUT` shape. -/
structure UserCreate where
  name : String
  email : String
  age : Int
  student_id : String
deriving DecidableEq, Repr

/-- Modelled from the spec: `UserUpdatePATCH` shape. -/
structure UserPatch where
  name : Option String
  email : Option String
  age : Option Int
  student_id : Option String
deriving DecidableEq, Repr

-- ------------------------------------------------------------
-- COURSES CRUD
-- ------------------------------------------------------------

/-- Handler for `POST /api/courses` (`create_course`): build the row, `db.add`,
commit-or-rollback with message "Course already exists"; 201 + row. -/
def create_course (s : Store) (course : CourseCreate) :
    Store × Except Err Course :=
  let row : Course :=
    { id := nextId (s.courses.map Course.id), code := course.code,
      name := course.name, credits := course.credits }
  let pending := { s with courses := s.courses ++ [row] }
  commitStep s pending "Course already exists" row

/-- Handler for `GET /api/courses` (`list_courses`): query params `limit`
(default 10) and `offset` (default 0), `none` meaning the parameter was
absent; `ORDER BY id LIMIT limit OFFSET offset`. -/
def list_courses (s : Store) (limitOpt offsetOpt : Option Nat) :
    List Course :=
  ((sortById Course.id s.courses).drop (offsetOpt.getD 0)).take
    (limitOpt.getD 10)

/-- Handler for `GET /api/courses/{course_id}` (`get_course`): 404 "Course not
found" if absent, else the row.  Read-only, so no store is returned. -/
def get_course (s : Store) (cid : Nat) : Except Err Course :=
  match findCourse s cid with
  | none => Except.error (Err.notFound "Course not found")
  | some row => Except.ok row

/-- Handler for `PUT /api/courses/{course_id}` (`put_course`): 404 if absent; else
overwrite code, name, credits and commit-or-rollback with message
"Course update failed". -/
def put_course (s : Store) (cid : Nat) (payload : CourseCreate) :
    Store × Except Err Course :=
  match findCourse s cid with
  | none => (s, Except.error (Err.notFound "Course not found"))
  | some row =>
    let row2 : Course :=
      { row with code := payload.code, name := payload.name,
                 credits := payload.credits }
    let pending :=
      { s with courses := s.courses.map fun c =>
          if c.id == cid then row2 else c }
    commitStep s pending "Course update failed" row2

/-- Handler for `PATCH /api/courses/{course_id}` (`patch_course`): 404 if absent;
else `setattr` each field present in the payload and commit-or-rollback
with message "Course update failed". -/
def patch_course (s : Store) (cid : Nat) (payload : CoursePatch) :
    Store × Except Err Course :=
  match findCourse s cid with
  | none => (s, Except.error (Err.notFound "Course not found"))
  | some row =>
    let row2 : Course :=
      { row with code := payload.code.getD row.code,
                 name := payload.name.getD row.name,
                 credits := payload.credits.getD row.credits }
    let pending :=
      { s with courses := s.courses.map fun c =>
          if c.id == cid then row2 else c }
    commitStep s pending "Course update failed" row2

/-- Handler for `DELETE /api/courses/{course_id}` (`delete_course`): 404 if absent;
else `db.delete(row)` and a bare `db.commit()` (no conflict wrapper);
204 with an empty body. -/
def delete_course (s : Store) (cid : Nat) : Store × Except Err Unit :=
  match findCourse s cid with
  | none => (s, Except.error (Err.notFound "Course not found"))
  | some _ =>
    let pending :=
      { s with courses := s.courses.filter fun c => !(c.id == cid) }
    dbCommitStep s pending

-- ------------------------------------------------------------
-- PROJECTS CRUD
-- ------------------------------------------------------------

/-- Handler for `POST /api/projects` (`create_project`): 404 "User not found" if the
body's owner does not exist; else insert and commit-or-rollback with
message "Project creation failed"; 201 + row. -/
def create_project (s : Store) (project : ProjectCreate) :
    Store × Except Err Project :=
  match findUser s project.owner_id with
  | none => (s, Except.error (Err.notFound "User not found"))
  | some _ =>
    let row : Project :=
      { id := nextId (s.projects.map Project.id), name := project.name,
        description := project.description, owner_id := project.owner_id }
    let pending := { s with projects := s.projects ++ [row] }
    commitStep s pending "Project creation failed" row

/-- Handler for `GET /api/projects` (`list_projects`): all projects `ORDER BY id`. -/
def list_projects (s : Store) : List Project :=
  sortById Project.id s.projects

/-- Handler for `GET /api/projects/{project_id}` (`get_project_owner`): the project
with its owner row loaded via `selectinload` (the marshalling of the
embedded owner is the schema layer's job); 404 "Project not found" if
absent. -/
def get_project_owner (s : Store) (pid : Nat) :
    Except Err (Project × Option User) :=
  match findProject s pid with
  | none => Except.error (Err.notFound "Project not found")
  | some row => Except.ok (row, findUser s row.owner_id)

/-- Handler for `PUT /api/projects/{project_id}` (`put_project`): 404 if the project
is absent; if the payload's owner_id differs from the current one and
that user does not exist, 404 "Owner not found"; else overwrite name,
description, owner_id and commit-or-rollback with message "Project
update failed". -/
def put_project (s : Store) (pid : Nat) (payload : ProjectCreate) :
    Store × Except Err Project :=
  match findProject s pid with
  | none => (s, Except.error (Err.notFound "Project not found"))
  | some row =>
    if payload.owner_id != row.owner_id && (findUser s payload.owner_id).isNone
    then (s, Except.error (Err.notFound "Owner not found"))
    else
      let row2 : Project :=
        { row with name := payload.name, description := payload.description,
                   owner_id := payload.owner_id }
      let pending :=
        { s with projects := s.projects.map fun p =>
            if p.id == pid then row2 else p }
      commitStep s pending "Project update failed" row2

/-- The `if "owner_id" in data` guard of `patch_project`: `true` iff the
payload supplies an owner_id and no user with that id exists. -/
def ownerMissing (s : Store) : Option Nat → Bool
  | none => false
  | some oid => (findUser s oid).isNone

/-- Handler for `PATCH /api/projects/{project_id}` (`patch_project`): 404 if the
project is absent; if owner_id is among the supplied fields and that
user does not exist (whether or not it differs from the current value),
404 "Owner not found"; else `setattr` each supplied field and
commit-or-rollback with message "Project update failed". -/
def patch_project (s : Store) (pid : Nat) (payload : ProjectPatch) :
    Store × Except Err Project :=
  match findProject s pid with
  | none => (s, Except.error (Err.notFound "Project not found"))
  | some row =>
    if ownerMissing s payload.owner_id
    then (s, Except.error (Err.notFound "Owner not found"))
    else
      let row2 : Project :=
        { row with name := payload.name.getD row.name,
                   description := payload.description.getD row.description,
                   owner_id := payload.owner_id.getD row.owner_id }
      let pending :=
        { s with projects := s.projects.map fun p =>
            if p.id == pid then row2 else p }
      commitStep s pending "Project update failed" row2

/-- Handler for `DELETE /api/projects/{project_id}` (`delete_project`): 404 if
absent; else `db.delete(row)` and a bare `db.commit()`; 204 empty. -/
def delete_project (s : Store) (pid : Nat) : Store × Except Err Unit :=
  match findProject s pid with
  | none => (s, Except.error (Err.notFound "Project not found"))
  | some _ =>
    let pending :=
      { s with projects := s.projects.filter fun p => !(p.id == pid) }
    dbCommitStep s pending

/-- Handler for `GET /api/users/{user_id}/projects` (`get_user_projects`): the
projects whose owner_id equals the path's user id; no existence check
on the user, no ordering clause. -/
def get_user_projects (s : Store) (uid : Nat) : List Project :=
  s.projects.filter fun p => p.owner_id == uid

/-- Handler for `POST /api/users/{user_id}/projects` (`create_user_project`): 404
"User not found" if the path's user does not exist; else insert a row
built from the body's name/description and the path's user id, and
commit-or-rollback with message "Project creation failed". -/
def create_user_project (s : Store) (uid : Nat)
    (project : ProjectCreateForUser) : Store × Except Err Project :=
  match findUser s uid with
  | none => (s, Except.error (Err.notFound "User not found"))
  | some _ =>
    let row : Project :=
      { id := nextId (s.projects.map Project.id), name := project.name,
        description := project.description, owner_id := uid }
    let pending := { s with projects := s.projects ++ [row] }
    commitStep s pending "Project creation failed" row

-- ------------------------------------------------------------
-- USERS CRUD
-- ------------------------------------------------------------

/-- Handler for `GET /api/users` (`list_users`): all users `ORDER BY id`. -/
def list_users (s : Store) : List User :=
  sortById User.id s.users

/-- Handler for `GET /api/users/{user_id}` (`get_user`): 404 "User not found" if
absent, else the row. -/
def get_user (s : Store) (uid : Nat) : Except Err User :=
  match findUser s uid with
  | none => Except.error (Err.notFound "User not found")
  | some row => Except.ok row

/-- Handler for `POST /api/users` (`add_user`): insert and commit-or-rollback with
message "User already exists"; 201 + row. -/
def add_user (s : Store) (payload : UserCreate) :
    Store × Except Err User :=
  let row : User :=
    { id := nextId (s.users.map User.id), name := payload.name,
      email := payload.email, age := payload.age,
      student_id := payload.student_id }
  let pending := { s with users := s.users ++ [row] }
  commitStep s pending "User already exists" row

/-- Handler for `DELETE /api/users/{user_id}` (`delete_user`): 404 if absent; else
`db.delete(user)` and a bare `db.commit()`; 204 empty.  Nothing touches
the projects table. -/
def delete_user (s : Store) (uid : Nat) : Store × Except Err Unit :=
  match findUser s uid with
  | none => (s, Except.error (Err.notFound "User not found"))
  | some _ =>
    let pending :=
      { s with users := s.users.filter fun u => !(u.id == uid) }
    dbCommitStep s pending

/-- Handler for `PUT /api/users/{user_id}` (`put_user`): 404 if absent; else
overwrite name, email, age, student_id and commit-or-rollback with
message "User update failed". -/
def put_user (s : Store) (uid : Nat) (payload : UserCreate) :
    Store × Except Err User :=
  match findUser s uid with
  | none => (s, Except.error (Err.notFound "User not found"))
  | some row =>
    let row2 : User :=
      { row with name := payload.name, email := payload.email,
                 age := payload.age, student_id := payload.student_id }
    let pending :=
      { s with users := s.users.map fun u =>
          if u.id == uid then row2 else u }
    commitStep s pending "User update failed" row2

/-- Handler for `PATCH /api/users/{user_id}` (`patch_user`): 404 if absent; else
`setattr` each supplied field and commit-or-rollback with message
"User update failed". -/
def patch_user (s : Store) (uid : Nat) (payload : UserPatch) :
    Store × Except Err User :=
  match findUser s uid with
  | none => (s, Except.error (Err.notFound "User not found"))
  | some row =>
    let row2 : User :=
      { row with name := payload.name.getD row.name,
                 email := payload.email.getD row.email,
                 age := payload.age.getD row.age,
                 student_id := payload.student_id.getD row.student_id }
    let pending :=
      { s with users := s.users.map fun u =>
          if u.id == uid then row2 else u }
    commitStep s pending "User update failed" row2

-- ------------------------------------------------------------
-- Helper lemmas
-- ------------------------------------------------------------

lemma distinctBy_iff_pairwise {α β : Type} [BEq β] [LawfulBEq β]
    (f : α → β) :
    ∀ l : List α, distinctBy f l = true ↔ l.Pairwise fun a b => f a ≠ f b
  | [] => by simp [distinctBy]
  | x :: xs => by
    simp only [distinctBy, Bool.and_eq_true, List.all_eq_true,
      Bool.not_eq_true', beq_eq_false_iff_ne, List.pairwise_cons,
      distinctBy_iff_pairwise f xs]
    constructor
    · rintro ⟨h1, h2⟩
      exact ⟨fun a ha => (h1 a ha).symm, h2⟩
    · rintro ⟨h1, h2⟩
      exact ⟨fun a ha => (h1 a ha).symm, h2⟩

lemma distinctBy_sublist {α β : Type} [BEq β] [LawfulBEq β] (f : α → β)
    {l1 l2 : List α} (h : l1.Sublist l2) (hd : distinctBy f l2 = true) :
    distinctBy f l1 = true := by
  rw [distinctBy_iff_pairwise] at hd ⊢
  exact hd.sublist h

lemma storeIntegrity_filter_courses (s : Store) (q : Course → Bool)
    (h : storeIntegrity s = true) :
    storeIntegrity { s with courses := s.courses.filter q } = true := by
  simp only [storeIntegrity, Bool.and_eq_true] at h ⊢
  obtain ⟨⟨⟨⟨⟨h1, h2⟩, h3⟩, h4⟩, h5⟩, h6⟩ := h
  exact ⟨⟨⟨⟨⟨distinctBy_sublist _ (List.filter_sublist _) h1,
    distinctBy_sublist _ (List.filter_sublist _) h2⟩, h3⟩, h4⟩, h5⟩, h6⟩

lemma storeIntegrity_filter_users (s : Store) (q : User → Bool)
    (h : storeIntegrity s = true) :
    storeIntegrity { s with users := s.users.filter q } = true := by
  simp only [storeIntegrity, Bool.and_eq_true] at h ⊢
  obtain ⟨⟨⟨⟨⟨h1, h2⟩, h3⟩, h4⟩, h5⟩, h6⟩ := h
  exact ⟨⟨⟨⟨⟨h1, h2⟩, distinctBy_sublist _ (List.filter_sublist _) h3⟩,
    distinctBy_sublist _ (List.filter_sublist _) h4⟩,
    distinctBy_sublist _ (List.filter_sublist _) h5⟩, h6⟩

lemma storeIntegrity_filter_projects (s : Store) (q : Project → Bool)
    (h : storeIntegrity s = true) :
    storeIntegrity { s with projects := s.projects.filter q } = true := by
  simp only [storeIntegrity, Bool.and_eq_true] at h ⊢
  obtain ⟨⟨⟨⟨⟨h1, h2⟩, h3⟩, h4⟩, h5⟩, h6⟩ := h
  exact ⟨⟨⟨⟨⟨h1, h2⟩, h3⟩, h4⟩, h5⟩,
    distinctBy_sublist _ (List.filter_sublist _) h6⟩

lemma find?_key_unique {α : Type} (f : α → Nat) {l : List α} {i : Nat}
    {row : α} (hd : distinctBy f l = true)
    (hf : l.find? (fun c => f c == i) = some row) :
    ∀ c ∈ l, f c = i → c = row := by
  intro c hc hci
  have hmem : row ∈ l := List.mem_of_find?_eq_some hf
  have hrow : f row = i := by
    have := List.find?_some hf
    simpa using this
  have hnd : (l.map f).Nodup := by
    rw [distinctBy_iff_pairwise] at hd
    exact (List.pairwise_map).mpr hd
  exact List.inj_on_of_nodup_map hnd hc hmem (by rw [hci, hrow])

lemma map_replace_self {α : Type} (f : α → Nat) {l : List α} {i : Nat}
    {row : α} (hd : distinctBy f l = true)
    (hf : l.find? (fun c => f c == i) = some row) :
    (l.map fun c => if f c == i then row else c) = l := by
  have key := find?_key_unique f hd hf
  have h : ∀ c ∈ l, (if f c == i then row else c) = id c := by
    intro c hc
    by_cases hci : f c = i
    · simp only [hci, beq_self_eq_true, if_true, id]
      exact (key c hc hci).symm
    · simp [hci]
  rw [List.map_congr_left h, List.map_id]

lemma find?_filter_ne {α : Type} (f : α → Nat) (l : List α) (i : Nat) :
    (l.filter fun c => !(f c == i)).find? (fun c => f c == i) = none := by
  rw [List.find?_eq_none]
  intro c hc
  have := (List.mem_filter.mp hc).2
  simp only [Bool.not_eq_true', beq_eq_false_iff_ne] at this
  simp [this]

lemma commit_or_rollback_cases (old pending : Store) (msg : String) :
    (storeIntegrity pending = true ∧
      commit_or_rollback old pending msg = (pending, none)) ∨
    (storeIntegrity pending = false ∧
      commit_or_rollback old pending msg =
        (old, some (Err.conflict msg))) := by
  by_cases h : storeIntegrity pending = true
  · exact Or.inl ⟨h, by simp [commit_or_rollback, h]⟩
  · rw [Bool.not_eq_true] at h
    exact Or.inr ⟨h, by simp [commit_or_rollback, h]⟩

lemma commitStep_of_integrity {A : Type} (old pending : Store)
    (msg : String) (a : A) (h : storeIntegrity pending = true) :
    commitStep old pending msg a = (pending, Except.ok a) := by
  simp [commitStep, commit_or_rollback, h]

lemma commitStep_of_violation {A : Type} (old pending : Store)
    (msg : String) (a : A) (h : storeIntegrity pending = false) :
    commitStep old pending msg a =
      (old, Except.error (Err.conflict msg)) := by
  simp [commitStep, commit_or_rollback, h]

lemma commitStep_cases {A : Type} (old pending : Store) (msg : String)
    (a : A) :
    (storeIntegrity pending = true ∧
      commitStep old pending msg a = (pending, Except.ok a)) ∨
    (storeIntegrity pending = false ∧
      commitStep old pending msg a =
        (old, Except.error (Err.conflict msg))) := by
  by_cases h : storeIntegrity pending = true
  · exact Or.inl ⟨h, commitStep_of_integrity old pending msg a h⟩
  · rw [Bool.not_eq_true] at h
    exact Or.inr ⟨h, commitStep_of_violation old pending msg a h⟩

lemma commitStep_error {A : Type} {old pending : Store} {msg : String}
    {a : A} {e : Err} (h : (commitStep old pending msg a).2 = Except.error e) :
    (commitStep old pending msg a).1 = old ∧ e = Err.conflict msg := by
  rcases commitStep_cases old pending msg a with ⟨_, heq⟩ | ⟨_, heq⟩ <;>
    rw [heq] at h ⊢ <;> simp_all

lemma commitStep_ok {A : Type} {old pending : Store} {msg : String}
    {a b : A} (h : (commitStep old pending msg a).2 = Except.ok b) :
    commitStep old pending msg a = (pending, Except.ok a) ∧ b = a := by
  rcases commitStep_cases old pending msg a with ⟨_, heq⟩ | ⟨_, heq⟩ <;>
    rw [heq] at h ⊢ <;> simp_all

lemma dbCommitStep_of_integrity (old pending : Store)
    (h : storeIntegrity pending = true) :
    dbCommitStep old pending = (pending, Except.ok ()) := by
  simp [dbCommitStep, db_commit, h]

lemma dbCommitStep_of_violation (old pending : Store)
    (h : storeIntegrity pending = false) :
    dbCommitStep old pending =
      (old, Except.error Err.integrityViolation) := by
  simp [dbCommitStep, db_commit, h]

lemma dbCommitStep_error {old pending : Store} {e : Err}
    (h : (dbCommitStep old pending).2 = Except.error e) :
    (dbCommitStep old pending).1 = old ∧ e = Err.integrityViolation := by
  by_cases hi : storeIntegrity pending = true
  · rw [dbCommitStep_of_integrity old pending hi] at h; simp_all
  · rw [Bool.not_eq_true] at hi
    rw [dbCommitStep_of_violation old pending hi] at h ⊢
    simp_all

instance sortKeyTotal {α : Type} (f : α → Nat) :
    IsTotal α fun a b => f a ≤ f b :=
  ⟨fun a b => Nat.le_total (f a) (f b)⟩

instance sortKeyTrans {α : Type} (f : α → Nat) :
    IsTrans α fun a b => f a ≤ f b :=
  ⟨fun _ _ _ => Nat.le_trans⟩

lemma sortById_sorted {α : Type} (f : α → Nat) (l : List α) :
    (sortById f l).Pairwise fun a b => f a ≤ f b :=
  List.sorted_insertionSort _ l

lemma sortById_length {α : Type} (f : α → Nat) (l : List α) :
    (sortById f l).length = l.length :=
  (List.perm_insertionSort _ l).length_eq

-- ------------------------------------------------------------
-- Concrete stores used by witnesses and counterexamples
-- ------------------------------------------------------------

/-- An empty store. -/
def emptyStore : Store := ⟨[], [], []⟩

/-- A pending session state violating the unique constraint on
`Course.code`. -/
def badPendingStore : Store :=
  ⟨[⟨1, "X", "n", 3⟩, ⟨2, "X", "m", 4⟩], [], []⟩

/-- A store holding one project whose owner (user 5) does not exist. -/
def orphanStore : Store := ⟨[], [], [⟨1, "P", "d", 5⟩]⟩

/-- The spec §8 scenario: user 1 owning project 1. -/
def userStore : Store :=
  ⟨[], [⟨1, "A", "a@x.com", 20, "S1"⟩], [⟨1, "P", "d", 1⟩]⟩

-- ------------------------------------------------------------
-- Claim theorems
-- ------------------------------------------------------------

/-- C1: For every insert or update attempt wrapped by the conflict-safe
write helper (`commit_or_rollback`, used through the shared tail
`commitStep`), a uniqueness/integrity violation at commit rolls the
store back to the pre-request state — no partial write survives — and
the operation fails with a 409 Conflict carrying exactly the
caller-supplied message; a successful commit raises no error and the
change is durably in the store the handler responds with.  Shown
generically for the wrapper and at handler level for `create_course`
(an insert) and `put_user` (an update). -/
theorem c1_conflict_safe_write :
    (∀ (old pending : Store) (msg : String) (a : Course),
      storeIntegrity pending = false →
        commitStep old pending msg a =
          (old, Except.error (Err.conflict msg)) ∧
        (Err.conflict msg).status = 409) ∧
    (∀ (old pending : Store) (msg : String) (a : Course),
      storeIntegrity pending = true →
        commitStep old pending msg a = (pending, Except.ok a)) ∧
    (∀ (s : Store) (p : CourseCreate) (e : Err),
      (create_course s p).2 = Except.error e →
        (create_course s p).1 = s ∧
        e = Err.conflict "Course already exists") ∧
    (∀ (s : Store) (p : CourseCreate) (row : Course),
      (create_course s p).2 = Except.ok row →
        (create_course s p).1.courses = s.courses ++ [row]) ∧
    (∀ (s : Store) (uid : Nat) (p : UserCreate) (e : Err),
      (put_user s uid p).2 = Except.error e → (put_user s uid p).1 = s) := by
  refine ⟨?_, ?_, ?_, ?_, ?_⟩
  · intro old pending msg a h
    exact ⟨commitStep_of_violation old pending msg a h, rfl⟩
  · intro old pending msg a h
    exact commitStep_of_integrity old pending msg a h
  · intro s p e h
    simp only [create_course] at h ⊢
    exact commitStep_error h
  · intro s p row h
    simp only [create_course] at h ⊢
    obtain ⟨heq, hba⟩ := commitStep_ok h
    rw [heq, hba]
  · intro s uid p e h
    cases hf : findUser s uid with
    | none =>
      simp [put_user, hf]
    | some row =>
      simp only [put_user, hf] at h ⊢
      exact (commitStep_error h).1

/-- Witness for C1 at a concrete violating commit. -/
theorem c1_conflict_safe_write_witness :
    commitStep emptyStore badPendingStore "Course already exists"
        (⟨1, "X", "n", 3⟩ : Course) =
      (emptyStore, Except.error (Err.conflict "Course already exists")) ∧
    (Err.conflict "Course already exists").status = 409 :=
  c1_conflict_safe_write.1 emptyStore badPendingStore
    "Course already exists" ⟨1, "X", "n", 3⟩ (by decide)

/-- C2: `POST /api/projects` checks the body's owner before any insert:
if no user with that id exists the handler fails with 404 "User not
found", the store is exactly the pre-request store, and the project
listing afterwards is identical to the listing before. -/
theorem c2_create_project_checks_owner :
    ∀ (s : Store) (p : ProjectCreate),
      findUser s p.owner_id = none →
        create_project s p =
          (s, Except.error (Err.notFound "User not found")) ∧
        (Err.notFound "User not found").status = 404 ∧
        list_projects (create_project s p).1 = list_projects s := by
  intro s p h
  have heq : create_project s p =
      (s, Except.error (Err.notFound "User not found")) := by
    simp [create_project, h]
  exact ⟨heq, rfl, by rw [heq]⟩

/-- Witness for C2: creating a project for nonexistent user 1 in the
empty store. -/
theorem c2_create_project_checks_owner_witness :
    create_project emptyStore ⟨"P", "d", 1⟩ =
      (emptyStore, Except.error (Err.notFound "User not found")) ∧
    (Err.notFound "User not found").status = 404 ∧
    list_projects (create_project emptyStore ⟨"P", "d", 1⟩).1 =
      list_projects emptyStore :=
  c2_create_project_checks_owner emptyStore ⟨"P", "d", 1⟩ (by decide)

/-- C3: `PATCH /api/projects/{id}` on an existing project whose payload
supplies an owner_id requires that user to exist — whether or not it
differs from the current value (no such hypothesis appears below): if
absent, the handler fails with 404 "Owner not found" and the store is
exactly the pre-request store, every other supplied field included. -/
theorem c3_patch_project_checks_supplied_owner :
    ∀ (s : Store) (pid : Nat) (p : ProjectPatch) (row : Project)
      (oid : Nat),
      findProject s pid = some row → p.owner_id = some oid →
      findUser s oid = none →
        patch_project s pid p =
          (s, Except.error (Err.notFound "Owner not found")) := by
  intro s pid p row oid hf ho hu
  have hm : ownerMissing s p.owner_id = true := by
    rw [ho]
    simp [ownerMissing, hu]
  simp [patch_project, hf, hm]

/-- Witness for C3: the supplied owner_id 5 equals the project's current
owner_id, user 5 does not exist, and the payload also supplies a new
name; the PATCH still fails 404 and the store keeps the old name. -/
theorem c3_patch_project_checks_supplied_owner_witness :
    patch_project orphanStore 1 ⟨some "N", none, some 5⟩ =
      (orphanStore, Except.error (Err.notFound "Owner not found")) :=
  c3_patch_project_checks_supplied_owner orphanStore 1
    ⟨some "N", none, some 5⟩ ⟨1, "P", "d", 5⟩ 5 (by decide) rfl (by decide)

/-- C4: `PUT /api/projects/{id}` on an existing project runs the
owner-existence check exactly when the payload's owner_id differs from
the current one: if it differs and the new owner is absent the handler
fails 404 "Owner not found" with the store untouched; if it equals the
current value no check is performed (no hypothesis on the users table
appears) and the update proceeds straight to the commit. -/
theorem c4_put_project_owner_check_iff_changed :
    (∀ (s : Store) (pid : Nat) (p : ProjectCreate) (row : Project),
      findProject s pid = some row → p.owner_id ≠ row.owner_id →
      findUser s p.owner_id = none →
        put_project s pid p =
          (s, Except.error (Err.notFound "Owner not found"))) ∧
    (∀ (s : Store) (pid : Nat) (p : ProjectCreate) (row : Project),
      findProject s pid = some row → p.owner_id = row.owner_id →
        put_project s pid p =
          commitStep s
            { s with projects := s.projects.map fun q =>
                if q.id == pid then
                  { row with name := p.name,
                             description := p.description,
                             owner_id := p.owner_id }
                else q }
            "Project update failed"
            { row with name := p.name, description := p.description,
                       owner_id := p.owner_id }) := by
  constructor
  · intro s pid p row hf hne hu
    have hc : (p.owner_id != row.owner_id
        && (findUser s p.owner_id).isNone) = true := by
      simp [bne_iff_ne, hne, hu]
    simp [put_project, hf, hc]
  · intro s pid p row hf heq
    have hc : (p.owner_id != row.owner_id
        && (findUser s p.owner_id).isNone) = false := by
      simp [heq]
    simp [put_project, hf, hc]

/-- Witness for C4: in a store whose sole project is owned by the absent
user 5, a PUT keeping owner_id 5 skips the check and succeeds, while a
PUT moving to the equally absent user 7 fails 404 "Owner not found". -/
theorem c4_put_project_owner_check_iff_changed_witness :
    put_project orphanStore 1 ⟨"N", "e", 7⟩ =
      (orphanStore, Except.error (Err.notFound "Owner not found")) ∧
    put_project orphanStore 1 ⟨"N", "e", 5⟩ =
      commitStep orphanStore
        { orphanStore with projects := orphanStore.projects.map fun q =>
            if q.id == 1 then (⟨1, "N", "e", 5⟩ : Project) else q }
        "Project update failed" (⟨1, "N", "e", 5⟩ : Project) :=
  ⟨c4_put_project_owner_check_iff_changed.1 orphanStore 1 ⟨"N", "e", 7⟩
      ⟨1, "P", "d", 5⟩ (by decide) (by decide) (by decide),
   c4_put_project_owner_check_iff_changed.2 orphanStore 1 ⟨"N", "e", 5⟩
      ⟨1, "P", "d", 5⟩ (by decide) rfl⟩

/-- C5: Every PATCH handler (courses, users, projects) applied to an
existing row modifies only the fields present in the payload — the
returned row carries the supplied value for each present field and the
prior value for each omitted field — and a PATCH supplying no fields
returns 200 with the store and every field of the row unchanged. -/
theorem c5_patch_touches_only_supplied_fields :
    (∀ (s : Store) (cid : Nat) (row r : Course) (p : CoursePatch),
      findCourse s cid = some row →
      (patch_course s cid p).2 = Except.ok r →
        r.id = row.id ∧ r.code = p.code.getD row.code ∧
        r.name = p.name.getD row.name ∧
        r.credits = p.credits.getD row.credits) ∧
    (∀ (s : Store) (uid : Nat) (row r : User) (p : UserPatch),
      findUser s uid = some row →
      (patch_user s uid p).2 = Except.ok r →
        r.id = row.id ∧ r.name = p.name.getD row.name ∧
        r.email = p.email.getD row.email ∧ r.age = p.age.getD row.age ∧
        r.student_id = p.student_id.getD row.student_id) ∧
    (∀ (s : Store) (pid : Nat) (row r : Project) (p : ProjectPatch),
      findProject s pid = some row →
      (patch_project s pid p).2 = Except.ok r →
        r.id = row.id ∧ r.name = p.name.getD row.name ∧
        r.description = p.description.getD row.description ∧
        r.owner_id = p.owner_id.getD row.owner_id) ∧
    (∀ (s : Store) (cid : Nat) (row : Course),
      storeIntegrity s = true → findCourse s cid = some row →
        patch_course s cid ⟨none, none, none⟩ = (s, Except.ok row)) ∧
    (∀ (s : Store) (uid : Nat) (row : User),
      storeIntegrity s = true → findUser s uid = some row →
        patch_user s uid ⟨none, none, none, none⟩ = (s, Except.ok row)) ∧
    (∀ (s : Store) (pid : Nat) (row : Project),
      storeIntegrity s = true → findProject s pid = some row →
        patch_project s pid ⟨none, none, none⟩ = (s, Except.ok row)) := by
  refine ⟨?_, ?_, ?_, ?_, ?_, ?_⟩
  · intro s cid row r p hf h
    simp only [patch_course, hf] at h
    obtain ⟨_, hr⟩ := commitStep_ok h
    subst hr
    exact ⟨rfl, rfl, rfl, rfl⟩
  · intro s uid row r p hf h
    simp only [patch_user, hf] at h
    obtain ⟨_, hr⟩ := commitStep_ok h
    subst hr
    exact ⟨rfl, rfl, rfl, rfl, rfl⟩
  · intro s pid row r p hf h
    simp only [patch_project, hf] at h
    by_cases hm : ownerMissing s p.owner_id = true
    · simp [hm] at h
    · rw [Bool.not_eq_true] at hm
      simp only [hm, Bool.false_eq_true, if_false] at h
      obtain ⟨_, hr⟩ := commitStep_ok h
      subst hr
      exact ⟨rfl, rfl, rfl, rfl⟩
  · intro s cid row hI hf
    have hd : distinctBy Course.id s.courses = true := by
      simp only [storeIntegrity, Bool.and_eq_true] at hI
      exact hI.1.1.1.1.1
    have hmap : (s.courses.map fun c =>
        if c.id == cid then row else c) = s.courses :=
      map_replace_self Course.id hd hf
    have hstore : ({ s with courses := s.courses.map fun c =>
        if c.id == cid then row else c } : Store) = s := by
      rw [hmap]
    simp only [patch_course, hf, Option.getD_none]
    rw [show ({ row with code := row.code,
                         name := row.name,
                         credits := row.credits } : Course) = row from rfl]
    rw [hstore]
    exact commitStep_of_integrity s s "Course update failed" row hI
  · intro s uid row hI hf
    have hd : distinctBy User.id s.users = true := by
      simp only [storeIntegrity, Bool.and_eq_true] at hI
      exact hI.1.1.1.2
    have hmap : (s.users.map fun u =>
        if u.id == uid then row else u) = s.users :=
      map_replace_self User.id hd hf
    have hstore : ({ s with users := s.users.map fun u =>
        if u.id == uid then row else u } : Store) = s := by
      rw [hmap]
    simp only [patch_user, hf, Option.getD_none]
    rw [show ({ row with name := row.name,
                         email := row.email,
                         age := row.age,
                         student_id := row.student_id } : User) = row
      from rfl]
    rw [hstore]
    exact commitStep_of_integrity s s "User update failed" row hI
  · intro s pid row hI hf
    have hd : distinctBy Project.id s.projects = true := by
      simp only [storeIntegrity, Bool.and_eq_true] at hI
      exact hI.2
    have hmap : (s.projects.map fun q =>
        if q.id == pid then row else q) = s.projects :=
      map_replace_self Project.id hd hf
    have hstore : ({ s with projects := s.projects.map fun q =>
        if q.id == pid then row else q } : Store) = s := by
      rw [hmap]
    have hm : ownerMissing s (none : Option Nat) = false := rfl
    simp only [patch_project, hf, hm, Bool.false_eq_true, if_false,
      Option.getD_none]
    rw [show ({ row with name := row.name,
                         description := row.description,
                         owner_id := row.owner_id } : Project) = row
      from rfl]
    rw [hstore]
    exact commitStep_of_integrity s s "Project update failed" row hI

/-- Witness for C5: an empty-body PATCH of user 1 in the §8 store leaves
the store and row untouched. -/
theorem c5_patch_touches_only_supplied_fields_witness :
    patch_user userStore 1 ⟨none, none, none, none⟩ =
      (userStore, Except.ok ⟨1, "A", "a@x.com", 20, "S1"⟩) :=
  c5_patch_touches_only_supplied_fields.2.2.2.2.1 userStore 1
    ⟨1, "A", "a@x.com", 20, "S1"⟩ (by decide) (by decide)

/-- A store state whose every delete leaves a duplicate `Course.code`
pending, so the commit of a DELETE reports an integrity violation. -/
def cexStore : Store :=
  ⟨[⟨1, "A", "a", 1⟩, ⟨2, "X", "b", 2⟩, ⟨3, "X", "c", 3⟩], [], []⟩

/-- C6 counterexample: the three DELETE handlers commit with a bare
`db.commit()`, not through `commit_or_rollback`; at this concrete input
the store reports an integrity violation during the DELETE commit and
the failure surfaces as an unhandled 500-class error, not as a 409
Conflict — refuting the claim that every state-mutating handler
(DELETE included) commits through the conflict-safe wrapper. -/
theorem c6_deletes_bypass_wrapper_counterexample :
    (delete_course cexStore 1).2 = Except.error Err.integrityViolation ∧
    Err.integrityViolation.status = 500 ∧
    Err.integrityViolation.status ≠ 409 := by decide

/-- C6 amended: every POST, PUT and PATCH handler commits through the
conflict-safe wrapper, so any error it raises is a client-facing 404 or
409 and the store is left exactly at the pre-request state (no partial
commit); the three DELETE handlers instead commit with a bare
`db.commit()`, but from any store satisfying the uniqueness invariants a
delete commit never reports a violation, so their only error is a 404
with the store unchanged. -/
theorem c6_mutating_handlers_error_discipline :
    (∀ (s : Store) (p : CourseCreate) (e : Err),
      (create_course s p).2 = Except.error e →
        (create_course s p).1 = s ∧ (e.status = 404 ∨ e.status = 409)) ∧
    (∀ (s : Store) (cid : Nat) (p : CourseCreate) (e : Err),
      (put_course s cid p).2 = Except.error e →
        (put_course s cid p).1 = s ∧ (e.status = 404 ∨ e.status = 409)) ∧
    (∀ (s : Store) (cid : Nat) (p : CoursePatch) (e : Err),
      (patch_course s cid p).2 = Except.error e →
        (patch_course s cid p).1 = s ∧
        (e.status = 404 ∨ e.status = 409)) ∧
    (∀ (s : Store) (p : ProjectCreate) (e : Err),
      (create_project s p).2 = Except.error e →
        (create_project s p).1 = s ∧
        (e.status = 404 ∨ e.status = 409)) ∧
    (∀ (s : Store) (pid : Nat) (p : ProjectCreate) (e : Err),
      (put_project s pid p).2 = Except.error e →
        (put_project s pid p).1 = s ∧
        (e.status = 404 ∨ e.status = 409)) ∧
    (∀ (s : Store) (pid : Nat) (p : ProjectPatch) (e : Err),
      (patch_project s pid p).2 = Except.error e →
        (patch_project s pid p).1 = s ∧
        (e.status = 404 ∨ e.status = 409)) ∧
    (∀ (s : Store) (uid : Nat) (p : ProjectCreateForUser) (e : Err),
      (create_user_project s uid p).2 = Except.error e →
        (create_user_project s uid p).1 = s ∧
        (e.status = 404 ∨ e.status = 409)) ∧
    (∀ (s : Store) (p : UserCreate) (e : Err),
      (add_user s p).2 = Except.error e →
        (add_user s p).1 = s ∧ (e.status = 404 ∨ e.status = 409)) ∧
    (∀ (s : Store) (uid : Nat) (p : UserCreate) (e : Err),
      (put_user s uid p).2 = Except.error e →
        (put_user s uid p).1 = s ∧ (e.status = 404 ∨ e.status = 409)) ∧
    (∀ (s : Store) (uid : Nat) (p : UserPatch) (e : Err),
      (patch_user s uid p).2 = Except.error e →
        (patch_user s uid p).1 = s ∧
        (e.status = 404 ∨ e.status = 409)) ∧
    (∀ (s : Store) (cid : Nat) (e : Err), storeIntegrity s = true →
      (delete_course s cid).2 = Except.error e →
        (delete_course s cid).1 = s ∧ e.status = 404) ∧
    (∀ (s : Store) (pid : Nat) (e : Err), storeIntegrity s = true →
      (delete_project s pid).2 = Except.error e →
        (delete_project s pid).1 = s ∧ e.status = 404) ∧
    (∀ (s : Store) (uid : Nat) (e : Err), storeIntegrity s = true →
      (delete_user s uid).2 = Except.error e →
        (delete_user s uid).1 = s ∧ e.status = 404) := by
  refine ⟨?_, ?_, ?_, ?_, ?_, ?_, ?_, ?_, ?_, ?_, ?_, ?_, ?_⟩
  · intro s p e h
    simp only [create_course] at h ⊢
    obtain ⟨h1, h2⟩ := commitStep_error h
    exact ⟨h1, Or.inr (h2 ▸ rfl)⟩
  · intro s cid p e h
    cases hf : findCourse s cid with
    | none =>
      simp [put_course, hf] at h
      subst h
      exact ⟨by simp [put_course, hf], Or.inl rfl⟩
    | some row =>
      simp only [put_course, hf] at h ⊢
      obtain ⟨h1, h2⟩ := commitStep_error h
      exact ⟨h1, Or.inr (h2 ▸ rfl)⟩
  · intro s cid p e h
    cases hf : findCourse s cid with
    | none =>
      simp [patch_course, hf] at h
      subst h
      exact ⟨by simp [patch_course, hf], Or.inl rfl⟩
    | some row =>
      simp only [patch_course, hf] at h ⊢
      obtain ⟨h1, h2⟩ := commitStep_error h
      exact ⟨h1, Or.inr (h2 ▸ rfl)⟩
  · intro s p e h
    cases hf : findUser s p.owner_id with
    | none =>
      simp [create_project, hf] at h
      subst h
      exact ⟨by simp [create_project, hf], Or.inl rfl⟩
    | some u =>
      simp only [create_project, hf] at h ⊢
      obtain ⟨h1, h2⟩ := commitStep_error h
      exact ⟨h1, Or.inr (h2 ▸ rfl)⟩
  · intro s pid p e h
    cases hf : findProject s pid with
    | none =>
      simp [put_project, hf] at h
      subst h
      exact ⟨by simp [put_project, hf], Or.inl rfl⟩
    | some row =>
      by_cases hc : (p.owner_id != row.owner_id
          && (findUser s p.owner_id).isNone) = true
      · have heq : put_project s pid p =
            (s, Except.error (Err.notFound "Owner not found")) := by
          simp [put_project, hf, hc]
        rw [heq] at h ⊢
        simp at h
        subst h
        exact ⟨rfl, Or.inl rfl⟩
      · rw [Bool.not_eq_true] at hc
        simp only [put_project, hf, hc, Bool.false_eq_true, if_false]
          at h ⊢
        obtain ⟨h1, h2⟩ := commitStep_error h
        exact ⟨h1, Or.inr (h2 ▸ rfl)⟩
  · intro s pid p e h
    cases hf : findProject s pid with
    | none =>
      simp [patch_project, hf] at h
      subst h
      exact ⟨by simp [patch_project, hf], Or.inl rfl⟩
    | some row =>
      by_cases hm : ownerMissing s p.owner_id = true
      · have heq : patch_project s pid p =
            (s, Except.error (Err.notFound "Owner not found")) := by
          simp [patch_project, hf, hm]
        rw [heq] at h ⊢
        simp at h
        subst h
        exact ⟨rfl, Or.inl rfl⟩
      · rw [Bool.not_eq_true] at hm
        simp only [patch_project, hf, hm, Bool.false_eq_true, if_false]
          at h ⊢
        obtain ⟨h1, h2⟩ := commitStep_error h
        exact ⟨h1, Or.inr (h2 ▸ rfl)⟩
  · intro s uid p e h
    cases hf : findUser s uid with
    | none =>
      simp [create_user_project, hf] at h
      subst h
      exact ⟨by simp [create_user_project, hf], Or.inl rfl⟩
    | some u =>
      simp only [create_user_project, hf] at h ⊢
      obtain ⟨h1, h2⟩ := commitStep_error h
      exact ⟨h1, Or.inr (h2 ▸ rfl)⟩
  · intro s p e h
    simp only [add_user] at h ⊢
    obtain ⟨h1, h2⟩ := commitStep_error h
    exact ⟨h1, Or.inr (h2 ▸ rfl)⟩
  · intro s uid p e h
    cases hf : findUser s uid with
    | none =>
      simp [put_user, hf] at h
      subst h
      exact ⟨by simp [put_user, hf], Or.inl rfl⟩
    | some row =>
      simp only [put_user, hf] at h ⊢
      obtain ⟨h1, h2⟩ := commitStep_error h
      exact ⟨h1, Or.inr (h2 ▸ rfl)⟩
  · intro s uid p e h
    cases hf : findUser s uid with
    | none =>
      simp [patch_user, hf] at h
      subst h
      exact ⟨by simp [patch_user, hf], Or.inl rfl⟩
    | some row =>
      simp only [patch_user, hf] at h ⊢
      obtain ⟨h1, h2⟩ := commitStep_error h
      exact ⟨h1, Or.inr (h2 ▸ rfl)⟩
  · intro s cid e hI h
    cases hf : findCourse s cid with
    | none =>
      simp [delete_course, hf] at h
      subst h
      exact ⟨by simp [delete_course, hf], rfl⟩
    | some row =>
      have hpend := storeIntegrity_filter_courses s
        (fun c => !(c.id == cid)) hI
      simp only [delete_course, hf] at h
      rw [dbCommitStep_of_integrity _ _ hpend] at h
      simp at h
  · intro s pid e hI h
    cases hf : findProject s pid with
    | none =>
      simp [delete_project, hf] at h
      subst h
      exact ⟨by simp [delete_project, hf], rfl⟩
    | some row =>
      have hpend := storeIntegrity_filter_projects s
        (fun p => !(p.id == pid)) hI
      simp only [delete_project, hf] at h
      rw [dbCommitStep_of_integrity _ _ hpend] at h
      simp at h
  · intro s uid e hI h
    cases hf : findUser s uid with
    | none =>
      simp [delete_user, hf] at h
      subst h
      exact ⟨by simp [delete_user, hf], rfl⟩
    | some row =>
      have hpend := storeIntegrity_filter_users s
        (fun u => !(u.id == uid)) hI
      simp only [delete_user, hf] at h
      rw [dbCommitStep_of_integrity _ _ hpend] at h
      simp at h

/-- Witness for the C6 amended claim: deleting the absent course 1 from
the empty store errors with a 404 and leaves the store unchanged. -/
theorem c6_mutating_handlers_error_discipline_witness :
    (delete_course emptyStore 1).1 = emptyStore ∧
    (Err.notFound "Course not found").status = 404 :=
  c6_mutating_handlers_error_discipline.2.2.2.2.2.2.2.2.2.2.1
    emptyStore 1 (Err.notFound "Course not found") (by decide) (by decide)

/-- C7: for each entity kind, DELETE on an absent id returns 404 with a
message naming the kind and leaves the store as it was; DELETE on an
existing row returns 204 with an empty body (`Except.ok ()`) and a
subsequent GET on the same id returns 404. -/
theorem c7_delete_lifecycle :
    (∀ (s : Store) (cid : Nat), findCourse s cid = none →
      delete_course s cid =
        (s, Except.error (Err.notFound "Course not found"))) ∧
    (∀ (s : Store) (pid : Nat), findProject s pid = none →
      delete_project s pid =
        (s, Except.error (Err.notFound "Project not found"))) ∧
    (∀ (s : Store) (uid : Nat), findUser s uid = none →
      delete_user s uid =
        (s, Except.error (Err.notFound "User not found"))) ∧
    (∀ (s : Store) (cid : Nat) (row : Course),
      storeIntegrity s = true → findCourse s cid = some row →
        (delete_course s cid).2 = Except.ok () ∧
        get_course (delete_course s cid).1 cid =
          Except.error (Err.notFound "Course not found")) ∧
    (∀ (s : Store) (pid : Nat) (row : Project),
      storeIntegrity s = true → findProject s pid = some row →
        (delete_project s pid).2 = Except.ok () ∧
        get_project_owner (delete_project s pid).1 pid =
          Except.error (Err.notFound "Project not found")) ∧
    (∀ (s : Store) (uid : Nat) (row : User),
      storeIntegrity s = true → findUser s uid = some row →
        (delete_user s uid).2 = Except.ok () ∧
        get_user (delete_user s uid).1 uid =
          Except.error (Err.notFound "User not found")) := by
  refine ⟨?_, ?_, ?_, ?_, ?_, ?_⟩
  · intro s cid h
    simp [delete_course, h]
  · intro s pid h
    simp [delete_project, h]
  · intro s uid h
    simp [delete_user, h]
  · intro s cid row hI hf
    have hpend := storeIntegrity_filter_courses s
      (fun c => !(c.id == cid)) hI
    simp only [delete_course, hf]
    rw [dbCommitStep_of_integrity _ _ hpend]
    refine ⟨rfl, ?_⟩
    have hnone : findCourse
        { s with courses := s.courses.filter fun c => !(c.id == cid) }
        cid = none :=
      find?_filter_ne Course.id s.courses cid
    simp [get_course, hnone]
  · intro s pid row hI hf
    have hpend := storeIntegrity_filter_projects s
      (fun p => !(p.id == pid)) hI
    simp only [delete_project, hf]
    rw [dbCommitStep_of_integrity _ _ hpend]
    refine ⟨rfl, ?_⟩
    have hnone : findProject
        { s with projects := s.projects.filter fun p => !(p.id == pid) }
        pid = none :=
      find?_filter_ne Project.id s.projects pid
    simp [get_project_owner, hnone]
  · intro s uid row hI hf
    have hpend := storeIntegrity_filter_users s
      (fun u => !(u.id == uid)) hI
    simp only [delete_user, hf]
    rw [dbCommitStep_of_integrity _ _ hpend]
    refine ⟨rfl, ?_⟩
    have hnone : findUser
        { s with users := s.users.filter fun u => !(u.id == uid) }
        uid = none :=
      find?_filter_ne User.id s.users uid
    simp [get_user, hnone]

/-- Witness for C7: deleting user 1 from the §8 store succeeds and a
subsequent GET of that user is a 404; deleting the absent course 9 is a
404. -/
theorem c7_delete_lifecycle_witness :
    ((delete_user userStore 1).2 = Except.ok () ∧
      get_user (delete_user userStore 1).1 1 =
        Except.error (Err.notFound "User not found")) ∧
    delete_course userStore 9 =
      (userStore, Except.error (Err.notFound "Course not found")) :=
  ⟨c7_delete_lifecycle.2.2.2.2.2 userStore 1
      ⟨1, "A", "a@x.com", 20, "S1"⟩ (by decide) (by decide),
   c7_delete_lifecycle.1 userStore 9 (by decide)⟩

/-- C8: `GET /api/courses` defaults its query params to limit 10 and
offset 0 when absent, returns the stored courses sorted ascending by id
restricted to the drop/take window, returns the empty sequence (not an
error) for any offset at or past the end, and never returns more than
`limit` rows. -/
theorem c8_list_courses_window :
    (∀ s : Store,
      list_courses s none none = list_courses s (some 10) (some 0)) ∧
    (∀ (s : Store) (lo oo : Option Nat),
      (list_courses s lo oo).Pairwise fun a b => a.id ≤ b.id) ∧
    (∀ (s : Store) (l o : Nat),
      list_courses s (some l) (some o) =
        ((sortById Course.id s.courses).drop o).take l) ∧
    (∀ (s : Store) (lo : Option Nat) (o : Nat),
      s.courses.length ≤ o → list_courses s lo (some o) = []) ∧
    (∀ (s : Store) (l : Nat) (oo : Option Nat),
      (list_courses s (some l) oo).length ≤ l) := by
  refine ⟨?_, ?_, ?_, ?_, ?_⟩
  · intro s
    rfl
  · intro s lo oo
    have hs := sortById_sorted Course.id s.courses
    have hsub : List.Sublist
        (((sortById Course.id s.courses).drop (oo.getD 0)).take
          (lo.getD 10))
        (sortById Course.id s.courses) :=
      (List.take_sublist _ _).trans (List.drop_sublist _ _)
    exact List.Pairwise.sublist hsub hs
  · intro s l o
    rfl
  · intro s lo o h
    have hlen : (sortById Course.id s.courses).length ≤ o := by
      rw [sortById_length]
      exact h
    simp [list_courses, List.drop_eq_nil_of_le hlen]
  · intro s l oo
    simp only [list_courses]
    exact (List.length_take_le _ _)

/-- Witness for C8: in a store of one course, an offset of 5 is past the
end and yields the empty sequence. -/
theorem c8_list_courses_window_witness :
    list_courses ⟨[⟨1, "C1", "n", 3⟩], [], []⟩ none (some 5) = [] :=
  c8_list_courses_window.2.2.2.1 ⟨[⟨1, "C1", "n", 3⟩], [], []⟩ none 5
    (by decide)

/-- C9: `GET /api/users/{uid}/projects` returns exactly the stored
projects whose owner_id equals uid; the result does not depend on the
users table at all (no existence check), and when no project matches the
result is the empty sequence, never an error. -/
theorem c9_user_projects_listing :
    (∀ (s : Store) (uid : Nat) (p : Project),
      p ∈ get_user_projects s uid ↔
        p ∈ s.projects ∧ p.owner_id = uid) ∧
    (∀ (s : Store) (uid : Nat) (us : List User),
      get_user_projects { s with users := us } uid =
        get_user_projects s uid) ∧
    (∀ (s : Store) (uid : Nat),
      (∀ p ∈ s.projects, p.owner_id ≠ uid) →
        get_user_projects s uid = []) := by
  refine ⟨?_, ?_, ?_⟩
  · intro s uid p
    simp [get_user_projects, List.mem_filter]
  · intro s uid us
    rfl
  · intro s uid h
    simp only [get_user_projects, List.filter_eq_nil_iff]
    intro p hp
    simp [h p hp]

/-- Witness for C9: user id 999 owns nothing in the §8 store, so the
nested listing is the empty sequence (a 200, not a 404). -/
theorem c9_user_projects_listing_witness :
    get_user_projects userStore 999 = [] :=
  c9_user_projects_listing.2.2 userStore 999 (by decide)

/-- C10: a successful `DELETE /api/users/{id}` removes only that user
row: every other user survives, the courses and projects tables are
untouched — in particular projects owned by the deleted user remain,
still referencing the now-absent user — and a lookup of the deleted
user yields none. -/
theorem c10_delete_user_no_cascade :
    ∀ (s : Store) (uid : Nat) (u : User),
      storeIntegrity s = true → findUser s uid = some u →
        (delete_user s uid).2 = Except.ok () ∧
        (delete_user s uid).1.projects = s.projects ∧
        (delete_user s uid).1.courses = s.courses ∧
        findUser (delete_user s uid).1 uid = none ∧
        get_user_projects (delete_user s uid).1 uid =
          get_user_projects s uid ∧
        (∀ v ∈ s.users, v.id ≠ uid → v ∈ (delete_user s uid).1.users) := by
  intro s uid u hI hf
  have hpend := storeIntegrity_filter_users s
    (fun w => !(w.id == uid)) hI
  simp only [delete_user, hf]
  rw [dbCommitStep_of_integrity _ _ hpend]
  refine ⟨rfl, rfl, rfl, find?_filter_ne User.id s.users uid, rfl, ?_⟩
  intro v hv hne
  simp only [List.mem_filter]
  exact ⟨hv, by simp [hne]⟩

/-- Witness for C10: deleting user 1 from the §8 store leaves project 1
in place with owner_id 1 now dangling. -/
theorem c10_delete_user_no_cascade_witness :
    (delete_user userStore 1).2 = Except.ok () ∧
    (delete_user userStore 1).1.projects = userStore.projects ∧
    findUser (delete_user userStore 1).1 1 = none :=
  ⟨(c10_delete_user_no_cascade userStore 1 ⟨1, "A", "a@x.com", 20, "S1"⟩
      (by decide) (by decide)).1,
   (c10_delete_user_no_cascade userStore 1 ⟨1, "A", "a@x.com", 20, "S1"⟩
      (by decide) (by decide)).2.1,
   (c10_delete_user_no_cascade userStore 1 ⟨1, "A", "a@x.com", 20, "S1"⟩
      (by decide) (by decide)).2.2.2.1⟩
